import Mathlib

/-!
Shallow embedding of the TRENDENCE mini workflow engine
(`src/app/engine.py` and `src/app/main.py`).

Python dictionaries whose keys are strings are modelled as association
lists (`List (String × _)`); Python values appearing in workflow state
are modelled by the inductive type `Value`; exceptions are modelled with
`Except String`, where the `String` is the message produced by
`str(exc)`; the unbounded `while` loop of `execute_graph` is modelled
with explicit fuel, `none` meaning the loop has not terminated within
the given fuel.
-/

namespace Trendence

/-- Python runtime values that can occur in a workflow state or in an
edge's `value` field.  `Value.none` is Python's `None`, which is also
the default returned by `dict.get` for an absent key and the default of
`EdgeDef.value`. -/
inductive Value where
  | none : Value
  | bool : Bool → Value
  | int : Int → Value
  | str : String → Value
deriving DecidableEq, Repr

/-- A Python dict with string keys, as an insertion-ordered association list. -/
abbrev Dict := List (String × Value)

/-- Lookup in an association list (Python `d[k]` / `k in d` / `d.get(k)`). -/
def alistGet {α : Type} : List (String × α) → String → Option α
  | [], _ => Option.none
  | (k, v) :: rest, key => if k == key then some v else alistGet rest key

/-- Update-or-append in an association list (Python `d[k] = v`): an
existing key keeps its position and gets the new value, a new key is
appended at the end. -/
def alistSet {α : Type} : List (String × α) → String → α → List (String × α)
  | [], key, v => [(key, v)]
  | (k, w) :: rest, key, v =>
      if k == key then (key, v) :: rest else (k, w) :: alistSet rest key v

/-- Python `state.get(key)`: an absent key yields `None`, not an error
(engine.py line 114). -/
def stateGet (st : Dict) (k : String) : Value :=
  (alistGet st k).getD Value.none

/-- Coercion used by Python's numeric comparisons: `bool` is a subtype
of `int` (`True == 1` holds), other values are not numbers. -/
def toNum : Value → Option Int
  | .bool b => some (if b then 1 else 0)
  | .int n => some n
  | _ => Option.none

/-- Python `a == b` on the modelled values: numbers (ints and bools)
compare by numeric value, strings by contents, `None` equals only
`None`, and values of unrelated types are unequal.  Never raises. -/
def pyEq (a b : Value) : Bool :=
  match toNum a, toNum b with
  | some x, some y => decide (x = y)
  | _, _ =>
    match a, b with
    | .none, .none => true
    | .str s, .str t => decide (s = t)
    | _, _ => false

/-- The Python type name of a value, as it appears in `TypeError` messages. -/
def typeName : Value → String
  | .none => "NoneType"
  | .bool _ => "bool"
  | .int _ => "int"
  | .str _ => "str"

/-- A Python ordering comparison `a OP b`: numbers compare numerically,
strings lexicographically, and any other combination raises
`TypeError("OP not supported between instances of ...")` — the
`UnsupportedComparison` failure of the spec's error taxonomy. -/
def pyOrd (intCmp : Int → Int → Bool) (strCmp : String → String → Bool)
    (sym : String) (a b : Value) : Except String Bool :=
  match toNum a, toNum b with
  | some x, some y => .ok (intCmp x y)
  | _, _ =>
    match a, b with
    | .str s, .str t => .ok (strCmp s t)
    | _, _ =>
        .error ("\x27" ++ sym ++ "\x27 not supported between instances of \x27"
          ++ typeName a ++ "\x27 and \x27" ++ typeName b ++ "\x27")

/-- `_compare` (engine.py lines 90-103): dispatch on the operator
string; `eq`/`ne` use Python `==`/`!=` and never raise, the four
ordering operators use Python's ordering comparisons and may raise, and
an unknown operator raises `ValueError`. -/
def pyCompare (a : Value) (op : String) (b : Value) : Except String Bool :=
  if op == "eq" then .ok (pyEq a b)
  else if op == "ne" then .ok (!pyEq a b)
  else if op == "lt" then pyOrd (fun x y => decide (x < y)) (fun s t => decide (s < t)) "<" a b
  else if op == "gt" then pyOrd (fun x y => decide (y < x)) (fun s t => decide (t < s)) ">" a b
  else if op == "lte" then pyOrd (fun x y => decide (x ≤ y)) (fun s t => decide (s ≤ t)) "<=" a b
  else if op == "gte" then pyOrd (fun x y => decide (y ≤ x)) (fun s t => decide (t ≤ s)) ">=" a b
  else .error ("Unsupported operator: " ++ op)

/-- Values are mutually comparable for the ordering operators exactly
when both are numbers (ints/bools) or both are strings. -/
def comparableVals (a b : Value) : Bool :=
  ((toNum a).isSome && (toNum b).isSome)
    || (match a, b with | .str _, .str _ => true | _, _ => false)

/-- `NodeDef` (engine.py lines 40-42). -/
structure NodeDef where
  name : String
  tool : String
deriving DecidableEq, Repr

/-- `EdgeDef` (engine.py lines 45-50), with the pydantic defaults:
`condition_key = None`, `operator = "eq"`, `value = None`. -/
structure EdgeDef where
  from_node : String
  to_node : String
  condition_key : Option String := Option.none
  operator : String := "eq"
  value : Value := .none
deriving DecidableEq, Repr

/-- `GraphDef` (engine.py lines 53-57); `nodes` is the name-indexed dict. -/
structure GraphDef where
  id : String
  nodes : List (String × NodeDef)
  edges : List EdgeDef
  start_node : String
deriving DecidableEq, Repr

/-- `RunStatus` (engine.py lines 60-64). -/
inductive RunStatus where
  | PENDING | RUNNING | COMPLETED | FAILED
deriving DecidableEq, Repr

/-- `RunLogEntry` (engine.py lines 67-69). -/
structure RunLogEntry where
  node : String
  state_snapshot : Dict
deriving DecidableEq, Repr

/-- `Run` (engine.py lines 72-79). -/
structure Run where
  id : String
  graph_id : String
  status : RunStatus := .PENDING
  current_node : Option String := Option.none
  state : Dict := []
  log : List RunLogEntry := []
  error : Option String := Option.none
deriving DecidableEq, Repr

/-- A tool: takes the state, returns a new state or raises (engine.py
line 10); tool failure carries the exception's message. -/
abbrev Tool := Dict → Except String Dict

/-- The tool registry's bindings (engine.py lines 13-32). -/
abbrev Registry := List (String × Tool)

/-- `str(KeyError(name))`: Python renders the missing key with `repr`,
so the message is the quoted key.  Raised by `graph.nodes[node_name]`
(engine.py line 129) — the `UnknownNode` failure of the spec. -/
def keyErrorMsg (name : String) : String :=
  "\x27" ++ name ++ "\x27"

/-- `str` of the `KeyError` raised by `ToolRegistry.get` (engine.py
line 31) — the `ToolNotFound` failure of the spec. -/
def toolNotFoundMsg (name : String) : String :=
  "\x22Tool \x27" ++ name ++ "\x27 is not registered\x22"

/-- The body of the `for edge in candidates` loop of `_next_node_name`
(engine.py lines 109-119): first edge with a null `condition_key` or a
matching condition wins; a raising comparison aborts the scan. -/
def matchEdges : List EdgeDef → Dict → Except String (Option String)
  | [], _ => .ok Option.none
  | e :: rest, st =>
    match e.condition_key with
    | Option.none => .ok (some e.to_node)
    | some k =>
      match pyCompare (stateGet st k) e.operator e.value with
      | .error msg => .error msg
      | .ok true => .ok (some e.to_node)
      | .ok false => matchEdges rest st

/-- `_next_node_name` (engine.py lines 106-119): scan the edges whose
`from_node` is the current node, in declared order. -/
def next_node_name (g : GraphDef) (name : String) (st : Dict) :
    Except String (Option String) :=
  matchEdges (g.edges.filter fun e => e.from_node == name) st

/-- Whether a single edge matches against a state: an edge with a null
`condition_key` matches unconditionally, otherwise the comparison of
`state.get(condition_key)` with the edge's value decides (and may
raise).  Spec-side reading of engine.py lines 110-116, used to state
properties of `next_node_name`. -/
def edgeMatches (e : EdgeDef) (st : Dict) : Except String Bool :=
  match e.condition_key with
  | Option.none => .ok true
  | some k => pyCompare (stateGet st k) e.operator e.value

/-- One iteration of the `while` body of `execute_graph` (engine.py
lines 127-139), starting from the mutation `run.current_node =
node_name`.  `Sum.inl` is an escaping exception together with the run
as mutated so far and the exception's message; `Sum.inr` is normal
completion of the iteration with the mutated run and the next
`node_name`.  Note that the log entry records `run.state.copy()`; at
this pure level of modelling the copy is the identity (the sharing
behaviour of the shallow copy is modelled separately below). -/
def stepNode (reg : Registry) (g : GraphDef) (run : Run) (name : String) :
    (Run × String) ⊕ (Run × Option String) :=
  match alistGet g.nodes name with
  | Option.none => .inl ({ run with current_node := some name }, keyErrorMsg name)
  | some nd =>
    match alistGet reg nd.tool with
    | Option.none =>
        .inl ({ run with current_node := some name }, toolNotFoundMsg nd.tool)
    | some tool =>
      match tool run.state with
      | .error msg => .inl ({ run with current_node := some name }, msg)
      | .ok st =>
        match next_node_name g name st with
        | .error msg =>
            .inl ({ run with
                      current_node := some name
                      state := st
                      log := run.log ++ [⟨name, st⟩] }, msg)
        | .ok next =>
            .inr ({ run with
                      current_node := some name
                      state := st
                      log := run.log ++ [⟨name, st⟩] }, next)

/-- The `while node_name is not None` loop of `execute_graph`
(engine.py lines 127-145), with fuel: `none` means the loop has not
terminated within `fuel` iterations.  Exiting normally clears
`current_node` and sets COMPLETED; an escaping exception sets FAILED
and stores the message, leaving `current_node` at the failing node. -/
def runLoop (reg : Registry) (g : GraphDef) :
    Nat → Run → Option String → Option Run
  | _, run, Option.none =>
      some { run with current_node := Option.none, status := .COMPLETED }
  | 0, _, some _ => Option.none
  | fuel + 1, run, some name =>
    match stepNode reg g run name with
    | .inl (fr, msg) => some { fr with status := .FAILED, error := some msg }
    | .inr (r2, next) => runLoop reg g fuel r2 next

/-- `execute_graph` (engine.py lines 122-145): set the run RUNNING and
drive the loop from the graph's start node. -/
def execute_graph (reg : Registry) (g : GraphDef) (fuel : Nat) (run : Run) :
    Option Run :=
  runLoop reg g fuel { run with status := .RUNNING } (some g.start_node)

/-- `{n.name: n for n in req.nodes}` (main.py line 75): index the
supplied nodes by name; a repeated name silently keeps the last one. -/
def nodesDict (nodes : List NodeDef) : List (String × NodeDef) :=
  nodes.foldl (fun d n => alistSet d n.name n) []

/-- `create_graph` (main.py lines 71-87).  The fresh `uuid` is modelled
as the parameter `gid`.  The only validation is that `start_node` is a
key of the node index; the edges are not inspected at all.  `.error` is
the `InvalidGraph` HTTP 400 rejection, raised before the graph is
stored. -/
def create_graph (gid : String) (nodes : List NodeDef) (edges : List EdgeDef)
    (start : String) : Except String GraphDef :=
  let nd := nodesDict nodes
  if (alistGet nd start).isSome then
    .ok { id := gid, nodes := nd, edges := edges, start_node := start }
  else
    .error "start_node must be one of the nodes"

/-- Spec-side outcome of a run, following the algorithm of the spec's
§4.3: `running` (fuel exhausted before termination), `completed`
(normal exit) or `failed` (an exception escaped), each carrying the
visits `(node, state-after-tool)` of exactly the tool calls that
completed before the end of the run, and for `failed` the node that was
executing when the failure was raised and the failure's message. -/
inductive SpecOutcome where
  | running : SpecOutcome
  | completed : List (String × Dict) → Dict → SpecOutcome
  | failed : List (String × Dict) → String → String → SpecOutcome
deriving DecidableEq, Repr

/-- Spec-side trace of a run (the reference algorithm of spec §4.3,
written independently of `Run` plumbing): walks the graph from `node`
over `st`, recording one visit per completed tool call — including the
visit of a node whose tool completed but whose edge evaluation then
raised — and stopping at the first failure. -/
def specTrace (reg : Registry) (g : GraphDef) :
    Nat → Dict → Option String → SpecOutcome
  | _, st, Option.none => .completed [] st
  | 0, _, some _ => .running
  | fuel + 1, st, some name =>
    match alistGet g.nodes name with
    | Option.none => .failed [] name (keyErrorMsg name)
    | some nd =>
      match alistGet reg nd.tool with
      | Option.none => .failed [] name (toolNotFoundMsg nd.tool)
      | some tool =>
        match tool st with
        | .error msg => .failed [] name msg
        | .ok st2 =>
          match next_node_name g name st2 with
          | .error msg => .failed [(name, st2)] name msg
          | .ok next =>
            match specTrace reg g fuel st2 next with
            | .running => .running
            | .completed vs fin => .completed ((name, st2) :: vs) fin
            | .failed vs n m => .failed ((name, st2) :: vs) n m

/-- The log entry recorded for one completed visit. -/
def mkEntry (p : String × Dict) : RunLogEntry := ⟨p.1, p.2⟩

/-- The run's state after a sequence of completed visits: the state of
the last visit, or the initial state when no tool call completed. -/
def lastState (st : Dict) : List (String × Dict) → Dict
  | [] => st
  | (_, s) :: vs => lastState s vs

/-!
Heap model for the sharing behaviour of the log snapshot.

The engine records `run.state.copy()` (engine.py line 136).  Python's
`dict.copy` is a shallow copy: a fresh top-level dict whose entries
point at the same value objects.  To reason about this aliasing, Python
objects are modelled as heap cells addressed by `Nat`: a dict cell maps
keys to addresses of its values.
-/

/-- A Python object on the heap: an immutable int, or a mutable dict
whose values are references (heap addresses). -/
inductive PyObj where
  | int : Int → PyObj
  | dict : List (String × Nat) → PyObj
deriving DecidableEq, Repr

/-- The heap: cell `a` of the heap is the object at address `a`. -/
abbrev Heap := List PyObj

/-- Dereference an address. -/
def heapGet (h : Heap) (a : Nat) : Option PyObj := h.get? a

/-- Overwrite the object at an (existing) address. -/
def heapSet (h : Heap) (a : Nat) (o : PyObj) : Heap := h.set a o

/-- Allocate a fresh object, returning the new heap and its address. -/
def heapAlloc (h : Heap) (o : PyObj) : Heap × Nat := (h ++ [o], h.length)

/-- Python `d.copy()` on the dict at address `a` (the snapshot taken at
engine.py line 136): allocate a fresh dict object with the same
key-to-address entries — the nested value objects are shared, not
copied. -/
def dictCopy (h : Heap) (a : Nat) : Heap × Nat :=
  match heapGet h a with
  | some (.dict entries) => heapAlloc h (.dict entries)
  | _ => (h, a)

/-- Python `d[k] = ref` on the dict at address `a`: mutate the dict
cell in place, leaving every other cell untouched. -/
def dictSetItem (h : Heap) (a : Nat) (k : String) (ref : Nat) : Heap :=
  match heapGet h a with
  | some (.dict entries) => heapSet h a (.dict (alistSet entries k ref))
  | _ => h

/-- Read the object reached from address `a` by following a path of
dict keys (Python `d[k1][k2]...`). -/
def readRef (h : Heap) (a : Nat) : List String → Option PyObj
  | [] => heapGet h a
  | k :: ks =>
    match heapGet h a with
    | some (.dict entries) =>
      match alistGet entries k with
      | some a2 => readRef h a2 ks
      | Option.none => Option.none
    | _ => Option.none

/-!  Concrete fixtures used by witnesses and scenario claims.  -/

/-- A tool that returns its state unchanged. -/
def idTool : Tool := fun st => .ok st

/-- A tool that always raises with message `boom`. -/
def boomTool : Tool := fun _ => .error "boom"

/-- The increment tool of the end-to-end scenario: adds one to the
integer at key `count`. -/
def incTool : Tool := fun st =>
  match stateGet st "count" with
  | .int n => .ok (alistSet st "count" (.int (n + 1)))
  | _ => .error "count is not an int"

/-- A tool that returns the constant state `{a: 1}`, regardless of its
input — used to exhibit wholesale state replacement. -/
def constATool : Tool := fun _ => .ok [("a", Value.int 1)]

/-- Registry holding all the concrete tools above. -/
def fixReg : Registry :=
  [("id", idTool), ("boom", boomTool), ("inc", incTool), ("constA", constATool)]

/-- C1 fixture: two edges out of `a`, both of whose conditions match on
the fixture state; the first goes to `b`, the second to `c`. -/
def w1Graph : GraphDef :=
  { id := "g1"
    nodes := [("a", ⟨"a", "id"⟩), ("b", ⟨"b", "id"⟩), ("c", ⟨"c", "id"⟩)]
    edges :=
      [ { from_node := "a", to_node := "b", condition_key := some "x",
          operator := "eq", value := .int 1 }
      , { from_node := "a", to_node := "c", condition_key := some "x",
          operator := "gte", value := .int 0 } ]
    start_node := "a" }

/-- C1 fixture state: `x = 1`, satisfying both edge conditions. -/
def w1St : Dict := [("x", Value.int 1)]

/-- C2 fixture: a single node with zero outgoing edges. -/
def w2Graph : GraphDef :=
  { id := "g2", nodes := [("a", ⟨"a", "id"⟩)], edges := [], start_node := "a" }

/-- A fresh pending run with empty state, over a given graph id. -/
def freshRun (gid : String) : Run := { id := "r", graph_id := gid }

/-- C3 fixture: `a` (whose tool succeeds) unconditionally followed by
`b`, whose tool raises `boom`. -/
def w3Graph : GraphDef :=
  { id := "g3"
    nodes := [("a", ⟨"a", "id"⟩), ("b", ⟨"b", "boom"⟩)]
    edges := [{ from_node := "a", to_node := "b" }]
    start_node := "a" }

/-- C4 fixture: one node whose tool returns `{a: 1}` wholesale. -/
def w4Graph : GraphDef :=
  { id := "g4", nodes := [("n", ⟨"n", "constA"⟩)], edges := [], start_node := "n" }

/-- C4 fixture run: prior state `{a: 0, b: 2}`. -/
def w4Run : Run :=
  { id := "r4", graph_id := "g4", state := [("a", Value.int 0), ("b", Value.int 2)] }

/-- C6 fixture: the end-to-end scenario graph — node `start` running
the increment tool, with a `start -> start` edge gated by `count < 3`. -/
def w6Graph : GraphDef :=
  { id := "g6"
    nodes := [("start", ⟨"start", "inc"⟩)]
    edges :=
      [ { from_node := "start", to_node := "start", condition_key := some "count",
          operator := "lt", value := .int 3 } ]
    start_node := "start" }

/-- C6 fixture run: initial state `{count: 0}`. -/
def w6Run : Run := { id := "r6", graph_id := "g6", state := [("count", Value.int 0)] }

/-- C7 fixture: a graph whose single edge applies `lt` to the missing
value `None` against an int — an incomparable ordering comparison. -/
def w7Graph : GraphDef :=
  { id := "g7"
    nodes := [("a", ⟨"a", "id"⟩)]
    edges :=
      [ { from_node := "a", to_node := "a", condition_key := some "missing",
          operator := "lt", value := .int 3 } ]
    start_node := "a" }

/-- C8 fixture nodes: a single node `a`. -/
def w8Nodes : List NodeDef := [⟨"a", "id"⟩]

/-- C8 fixture edges: a dangling edge from `a` to the nonexistent node
`ghost`. -/
def w8Edges : List EdgeDef := [{ from_node := "a", to_node := "ghost" }]

/-- C9 fixture: two `NodeDef`s sharing the name `a`, bound to different
tools. -/
def w9Nodes : List NodeDef := [⟨"a", "t1"⟩, ⟨"a", "t2"⟩]

/-- C10 fixture edge: `condition_key` set, `operator` and `value` left
at their defaults (`eq` and `None`). -/
def w10Edge : EdgeDef := { from_node := "a", to_node := "b", condition_key := some "flag" }

/-- C5 fixture heap: address 0 holds the run state `{x: ref 1}`,
address 1 the nested dict `{v: ref 2}`, address 2 the int `0`. -/
def w5Heap : Heap := [.dict [("x", 1)], .dict [("v", 2)], .int 0]

/-- C5: the heap after taking the snapshot `run.state.copy()` of the
dict at address 0 — the copy lives at address 3. -/
def w5HeapCopied : Heap := (dictCopy w5Heap 0).1

/-- C5: the snapshot's address. -/
def w5Snap : Nat := (dictCopy w5Heap 0).2

/-- C5: the heap after the nested mutation `run.state["x"]["v"] = 5`
performed after the snapshot was taken: allocate the int `5` (at
address 4) and store its reference into the nested dict at address 1. -/
def w5HeapMutated : Heap := dictSetItem (w5HeapCopied ++ [.int 5]) 1 "v" 4

/-- Whether an `Except` computation succeeded (no exception escaped). -/
def isOkE {ε α : Type} : Except ε α → Bool
  | .ok _ => true
  | .error _ => false

/-- Whether an `Except` computation raised. -/
def isErr {ε α : Type} : Except ε α → Bool
  | .ok _ => false
  | .error _ => true

/-- C4: the run produced by the fixture step — state replaced wholesale
by the tool's return value `{a: 1}`, key `b` dropped. -/
def w4Result : Run :=
  { w4Run with
      current_node := some "n"
      state := [("a", Value.int 1)]
      log := [⟨"n", [("a", Value.int 1)]⟩] }

/-!  Helper lemmas.  -/

/-- Lookup after update-or-append: the updated key reads the new value,
any other key is unaffected. -/
theorem alistGet_set {α : Type} (d : List (String × α)) (k : String) (v : α)
    (key : String) :
    alistGet (alistSet d k v) key = if k == key then some v else alistGet d key := by
  induction d with
  | nil => simp [alistSet, alistGet]
  | cons p rest ih =>
    obtain ⟨k2, w⟩ := p
    by_cases h : k2 = k
    · subst h
      by_cases h2 : k2 = key <;> simp [alistSet, alistGet, h2]
    · by_cases h2 : k2 = key
      · subst h2
        simp [alistSet, alistGet, h, Ne.symm h]
      · simp [alistSet, alistGet, h, h2, ih]

/-- The node index built by `create_graph` binds each name to the
last supplied `NodeDef` carrying it. -/
theorem nodesDict_get (nodes : List NodeDef) (name : String) :
    alistGet (nodesDict nodes) name
      = nodes.reverse.find? (fun n => n.name == name) := by
  induction nodes using List.reverseRecOn with
  | nil => rfl
  | append_singleton ns n ih =>
    rw [nodesDict, List.foldl_append, List.foldl_cons, List.foldl_nil,
      List.reverse_append, List.reverse_singleton, List.singleton_append]
    rw [show (ns.foldl (fun d n => alistSet d n.name n) []) = nodesDict ns from rfl]
    rw [alistGet_set]
    cases hb : n.name == name with
    | true => simp [List.find?, hb]
    | false => simp [List.find?, hb, ih]

/-- The scan of `_next_node_name` returns the first matching candidate:
if every candidate strictly before position `i` evaluates to a
non-match and the candidate at `i` matches, the scan returns its
`to_node`. -/
theorem matchEdges_first (st : Dict) (cs : List EdgeDef) :
    ∀ (i : Nat) (hi : i < cs.length),
      (∀ j (hj : j < i), edgeMatches (cs.get ⟨j, Nat.lt_trans hj hi⟩) st = .ok false) →
      edgeMatches (cs.get ⟨i, hi⟩) st = .ok true →
      matchEdges cs st = .ok (some (cs.get ⟨i, hi⟩).to_node) := by
  induction cs with
  | nil => intro i hi; simp at hi
  | cons e cs ih =>
    intro i hi hbefore hmatch
    match i with
    | 0 =>
      have hm : edgeMatches e st = Except.ok true := hmatch
      show matchEdges (e :: cs) st = Except.ok (some e.to_node)
      cases hck : e.condition_key with
      | none => simp [matchEdges, hck]
      | some k =>
        have hc : pyCompare (stateGet st k) e.operator e.value = .ok true := by
          simpa [edgeMatches, hck] using hm
        simp [matchEdges, hck, hc]
    | i + 1 =>
      have h0 : edgeMatches e st = .ok false := hbefore 0 (Nat.succ_pos i)
      simp only [List.get_cons_succ] at hmatch ⊢
      cases hck : e.condition_key with
      | none => simp [edgeMatches, hck] at h0
      | some k =>
        have hc : pyCompare (stateGet st k) e.operator e.value = .ok false := by
          simpa [edgeMatches, hck] using h0
        have hstep : matchEdges (e :: cs) st
            = (match pyCompare (stateGet st k) e.operator e.value with
               | Except.error msg => Except.error msg
               | Except.ok true => Except.ok (some e.to_node)
               | Except.ok false => matchEdges cs st) := by
          show (match e.condition_key with
                | Option.none => Except.ok (some e.to_node)
                | some k2 =>
                  match pyCompare (stateGet st k2) e.operator e.value with
                  | Except.error msg => Except.error msg
                  | Except.ok true => Except.ok (some e.to_node)
                  | Except.ok false => matchEdges cs st) = _
          rw [hck]
        rw [hstep, hc]
        exact ih i (Nat.lt_of_succ_lt_succ hi)
          (fun j hj => hbefore (j + 1) (Nat.succ_lt_succ hj)) hmatch

/-- Refinement, completed case: when the spec-side trace of a run
completes, the engine loop terminates with a COMPLETED run whose
`current_node` is cleared, whose state is the trace's final state and
whose log extends the initial log by exactly one entry per completed
tool call. -/
theorem runLoop_completed (reg : Registry) (g : GraphDef) :
    ∀ (fuel : Nat) (run : Run) (node : Option String)
      (vs : List (String × Dict)) (fin : Dict),
      specTrace reg g fuel run.state node = .completed vs fin →
      runLoop reg g fuel run node =
        some { run with
                 current_node := Option.none
                 status := .COMPLETED
                 state := fin
                 log := run.log ++ vs.map mkEntry } := by
  intro fuel
  induction fuel with
  | zero =>
    intro run node vs fin h
    cases node with
    | none =>
      simp only [specTrace, SpecOutcome.completed.injEq] at h
      obtain ⟨hvs, hfin⟩ := h
      subst hvs; subst hfin
      simp [runLoop]
    | some name => simp [specTrace] at h
  | succ fuel ih =>
    intro run node vs fin h
    cases node with
    | none =>
      simp only [specTrace, SpecOutcome.completed.injEq] at h
      obtain ⟨hvs, hfin⟩ := h
      subst hvs; subst hfin
      simp [runLoop]
    | some name =>
      simp only [specTrace] at h
      rw [runLoop]
      unfold stepNode
      cases hnd : alistGet g.nodes name with
      | none => simp [hnd] at h
      | some nd =>
        simp only [hnd] at h ⊢
        cases htool : alistGet reg nd.tool with
        | none => simp [htool] at h
        | some tool =>
          simp only [htool] at h ⊢
          cases hres : tool run.state with
          | error msg => simp [hres] at h
          | ok st2 =>
            simp only [hres] at h ⊢
            cases hnext : next_node_name g name st2 with
            | error msg => simp [hnext] at h
            | ok next =>
              simp only [hnext] at h ⊢
              cases hrec : specTrace reg g fuel st2 next with
              | running => simp [hrec] at h
              | failed vs2 n m => simp [hrec] at h
              | completed vs2 fin2 =>
                simp only [hrec, SpecOutcome.completed.injEq] at h
                obtain ⟨hvs, hfin⟩ := h
                subst hvs; subst hfin
                rw [ih { run with
                           current_node := some name
                           state := st2
                           log := run.log ++ [⟨name, st2⟩] } next vs2 fin2 hrec]
                simp [mkEntry]

/-- Refinement, failed case: when the spec-side trace of a run fails,
the engine loop stops with a FAILED run whose `error` is the failure's
message, whose `current_node` is the node that was executing, whose
state is the state after the last completed tool call, and whose log
extends the initial log by exactly one entry per completed tool call. -/
theorem runLoop_failed (reg : Registry) (g : GraphDef) :
    ∀ (fuel : Nat) (run : Run) (node : Option String)
      (vs : List (String × Dict)) (n : String) (msg : String),
      specTrace reg g fuel run.state node = .failed vs n msg →
      runLoop reg g fuel run node =
        some { run with
                 current_node := some n
                 status := .FAILED
                 error := some msg
                 state := lastState run.state vs
                 log := run.log ++ vs.map mkEntry } := by
  intro fuel
  induction fuel with
  | zero =>
    intro run node vs n msg h
    cases node with
    | none => simp [specTrace] at h
    | some name => simp [specTrace] at h
  | succ fuel ih =>
    intro run node vs n msg h
    cases node with
    | none => simp [specTrace] at h
    | some name =>
      simp only [specTrace] at h
      rw [runLoop]
      unfold stepNode
      cases hnd : alistGet g.nodes name with
      | none =>
        simp only [hnd, SpecOutcome.failed.injEq] at h
        obtain ⟨hvs, hn, hmsg⟩ := h
        subst hvs; subst hn; subst hmsg
        simp [lastState]
      | some nd =>
        simp only [hnd] at h ⊢
        cases htool : alistGet reg nd.tool with
        | none =>
          simp only [htool, SpecOutcome.failed.injEq] at h
          obtain ⟨hvs, hn, hmsg⟩ := h
          subst hvs; subst hn; subst hmsg
          simp [lastState]
        | some tool =>
          simp only [htool] at h ⊢
          cases hres : tool run.state with
          | error m2 =>
            simp only [hres, SpecOutcome.failed.injEq] at h
            obtain ⟨hvs, hn, hmsg⟩ := h
            subst hvs; subst hn; subst hmsg
            simp [lastState]
          | ok st2 =>
            simp only [hres] at h ⊢
            cases hnext : next_node_name g name st2 with
            | error m2 =>
              simp only [hnext, SpecOutcome.failed.injEq] at h
              obtain ⟨hvs, hn, hmsg⟩ := h
              subst hvs; subst hn; subst hmsg
              simp [lastState, mkEntry]
            | ok next =>
              simp only [hnext] at h ⊢
              cases hrec : specTrace reg g fuel st2 next with
              | running => simp [hrec] at h
              | completed vs2 fin2 => simp [hrec] at h
              | failed vs2 n2 m2 =>
                simp only [hrec, SpecOutcome.failed.injEq] at h
                obtain ⟨hvs, hn, hmsg⟩ := h
                subst hvs; subst hn; subst hmsg
                rw [ih { run with
                           current_node := some name
                           state := st2
                           log := run.log ++ [⟨name, st2⟩] } next vs2 n2 m2 hrec]
                simp [mkEntry, lastState]

/-- The node index has a binding for `start` exactly when `start` is
among the supplied node names. -/
theorem nodesDict_mem (nodes : List NodeDef) (start : String) :
    (alistGet (nodesDict nodes) start).isSome = true
      ↔ start ∈ nodes.map NodeDef.name := by
  rw [nodesDict_get, List.find?_isSome]
  simp only [List.mem_reverse, List.mem_map, beq_iff_eq]

/-!  Claim theorems.  -/

/-- C1: Edge selection is first-match-wins in declaration order:
`_next_node_name` scans the edges whose `from_node` equals the node
name, in the graph's declared order, and returns the `to_node` of the
first edge that matches (an edge with a null `condition_key` matching
unconditionally, as `edgeMatches` states); in particular, when the
conditions of two edges from the same node both match, the
earlier-declared edge is always selected. -/
theorem first_match_wins (g : GraphDef) (name : String) (st : Dict) (i : Nat)
    (hi : i < (g.edges.filter fun e => e.from_node == name).length)
    (hbefore : ∀ j (hj : j < i),
      edgeMatches ((g.edges.filter fun e => e.from_node == name).get
        ⟨j, Nat.lt_trans hj hi⟩) st = .ok false)
    (hmatch : edgeMatches
      ((g.edges.filter fun e => e.from_node == name).get ⟨i, hi⟩) st = .ok true) :
    next_node_name g name st
      = .ok (some ((g.edges.filter fun e => e.from_node == name).get ⟨i, hi⟩).to_node) :=
  matchEdges_first st _ i hi hbefore hmatch

/-- C1 witness: in `w1Graph` both edges out of `a` match on `w1St`
(the second matches too, as the first conjunct shows), and the scan
selects the earlier edge's target `b`, not `c`. -/
theorem first_match_wins_witness :
    edgeMatches (w1Graph.edges.get ⟨1, by decide⟩) w1St = .ok true ∧
    next_node_name w1Graph "a" w1St = .ok (some "b") :=
  ⟨rfl, first_match_wins w1Graph "a" w1St 0 (by decide)
      (fun j hj => absurd hj (Nat.not_lt_zero j)) rfl⟩

/-- C2: Termination on no match: when the spec-side trace of a run
completes — the loop exited because, after some node's tool ran, no
outgoing edge matched (including a node with zero outgoing edges) and
no failure occurred — `execute_graph` ends the run with status
COMPLETED and `current_node = None`. -/
theorem termination_on_no_match (reg : Registry) (g : GraphDef) (fuel : Nat)
    (run : Run) (vs : List (String × Dict)) (fin : Dict)
    (h : specTrace reg g fuel run.state (some g.start_node) = .completed vs fin) :
    execute_graph reg g fuel run =
      some { run with
               current_node := Option.none
               status := .COMPLETED
               state := fin
               log := run.log ++ vs.map mkEntry } := by
  unfold execute_graph
  rw [runLoop_completed reg g fuel { run with status := .RUNNING }
    (some g.start_node) vs fin (by exact h)]

/-- C2 witness: a graph whose single node has zero outgoing edges
terminates COMPLETED with `current_node = None` after one visit. -/
theorem termination_on_no_match_witness :
    execute_graph fixReg w2Graph 2 (freshRun "g2") =
      some { freshRun "g2" with
               current_node := Option.none
               status := .COMPLETED
               state := []
               log := [⟨"a", []⟩] } :=
  termination_on_no_match fixReg w2Graph 2 (freshRun "g2") [("a", [])] [] rfl

/-- C3: Failure handling: when the spec-side trace of a run fails — a
failure was raised during node lookup, tool resolution, tool invocation
or edge evaluation — `execute_graph` stops the loop immediately with
status FAILED, `error` set to the failure's message, `current_node`
retaining the node that was executing (not cleared), and the log
holding exactly one entry per tool call that completed strictly before
the failure. -/
theorem failure_semantics (reg : Registry) (g : GraphDef) (fuel : Nat)
    (run : Run) (vs : List (String × Dict)) (n : String) (msg : String)
    (h : specTrace reg g fuel run.state (some g.start_node) = .failed vs n msg) :
    execute_graph reg g fuel run =
      some { run with
               current_node := some n
               status := .FAILED
               error := some msg
               state := lastState run.state vs
               log := run.log ++ vs.map mkEntry } := by
  unfold execute_graph
  rw [runLoop_failed reg g fuel { run with status := .RUNNING }
    (some g.start_node) vs n msg (by exact h)]

/-- C3 witness: in `w3Graph` node `a` succeeds and node `b`'s tool
raises `boom`: the run is FAILED with error `boom`, `current_node`
still `b`, and the log holds only `a`'s entry. -/
theorem failure_semantics_witness :
    execute_graph fixReg w3Graph 3 (freshRun "g3") =
      some { freshRun "g3" with
               current_node := some "b"
               status := .FAILED
               error := some "boom"
               state := []
               log := [⟨"a", []⟩] } :=
  failure_semantics fixReg w3Graph 3 (freshRun "g3") [("a", [])] "b" "boom" rfl

/-- C4: State replacement semantics: when a node's tool returns a
mapping, that mapping becomes `run.state` wholesale — on normal
continuation and also when the subsequent edge evaluation raises — with
no merging with the prior state. -/
theorem state_replaced_wholesale (reg : Registry) (g : GraphDef) (run : Run)
    (name : String) (nd : NodeDef) (tool : Tool) (st2 : Dict)
    (hnd : alistGet g.nodes name = some nd)
    (htool : alistGet reg nd.tool = some tool)
    (hres : tool run.state = .ok st2) :
    (∀ fr msg, stepNode reg g run name = .inl (fr, msg) → fr.state = st2) ∧
    (∀ r2 next, stepNode reg g run name = .inr (r2, next) → r2.state = st2) := by
  unfold stepNode
  simp only [hnd, htool, hres]
  cases hnext : next_node_name g name st2 with
  | error m =>
    refine ⟨fun fr msg hstep => ?_, fun r2 next hstep => ?_⟩
    · simp only [Sum.inl.injEq, Prod.mk.injEq] at hstep
      rw [← hstep.1]
    · simp at hstep
  | ok nx =>
    refine ⟨fun fr msg hstep => ?_, fun r2 next hstep => ?_⟩
    · simp at hstep
    · simp only [Sum.inr.injEq, Prod.mk.injEq] at hstep
      rw [← hstep.1]

/-- C4 witness: the fixture tool returns `{a: 1}` from the prior state
`{a: 0, b: 2}` and the resulting run state is exactly `{a: 1}` — key
`b` was dropped, not merged. -/
theorem state_replaced_wholesale_witness :
    stepNode fixReg w4Graph w4Run "n" = .inr (w4Result, Option.none) ∧
    w4Result.state = [("a", Value.int 1)] :=
  ⟨rfl, (state_replaced_wholesale fixReg w4Graph w4Run "n" ⟨"n", "constA"⟩ constATool
      [("a", Value.int 1)] rfl rfl rfl).2 w4Result Option.none rfl⟩

/-- C6: End-to-end loop scenario: the graph with single node `start`
(increment tool), edge `start -> start` gated by `count lt 3`, and
initial state `{count: 0}` terminates with status COMPLETED, final
state `{count: 3}`, and exactly 3 log entries, all for node `start`. -/
theorem end_to_end_scenario :
    (execute_graph fixReg w6Graph 5 w6Run).map Run.status = some .COMPLETED ∧
    (execute_graph fixReg w6Graph 5 w6Run).map Run.state
      = some [("count", Value.int 3)] ∧
    (execute_graph fixReg w6Graph 5 w6Run).map (fun r => r.log.map RunLogEntry.node)
      = some ["start", "start", "start"] :=
  ⟨rfl, rfl, rfl⟩

/-- C7: Comparison semantics: `eq`/`ne` compute Python `==`/`!=` (with
`ne` the exact negation of `eq`) and never raise for any value shapes —
including the missing value `None` read for an absent state key; on
ints the six operators agree with integer equality and order; an
ordering operator applied to mutually incomparable values raises (the
`UnsupportedComparison` failure of the taxonomy), and such a failure
during edge evaluation makes the run FAIL rather than crashing the
engine. -/
theorem compare_semantics :
    (∀ a b, pyCompare a "eq" b = .ok (pyEq a b)
       ∧ pyCompare a "ne" b = .ok (!pyEq a b)) ∧
    (∀ x y : Int,
       pyCompare (.int x) "eq" (.int y) = .ok (decide (x = y)) ∧
       pyCompare (.int x) "ne" (.int y) = .ok (!decide (x = y)) ∧
       pyCompare (.int x) "lt" (.int y) = .ok (decide (x < y)) ∧
       pyCompare (.int x) "gt" (.int y) = .ok (decide (y < x)) ∧
       pyCompare (.int x) "lte" (.int y) = .ok (decide (x ≤ y)) ∧
       pyCompare (.int x) "gte" (.int y) = .ok (decide (y ≤ x))) ∧
    (∀ a b op, (op = "lt" ∨ op = "gt" ∨ op = "lte" ∨ op = "gte") →
       comparableVals a b = false → isErr (pyCompare a op b) = true) ∧
    ((execute_graph fixReg w7Graph 3 (freshRun "g7")).map
        (fun r => (r.status, r.error.isSome)) = some (.FAILED, true)) := by
  refine ⟨fun a b => ⟨rfl, rfl⟩, fun x y => ⟨rfl, rfl, rfl, rfl, rfl, rfl⟩, ?_, rfl⟩
  intro a b op hop hc
  rcases hop with rfl | rfl | rfl | rfl <;>
    cases a <;> cases b <;>
    simp_all [pyCompare, pyOrd, comparableVals, toNum, isErr]

/-- C7 witness: `eq` against the missing value `None` returns a result
without raising, while `lt` against `None` raises. -/
theorem compare_semantics_witness :
    pyCompare Value.none "eq" (Value.int 0) = .ok false ∧
    isErr (pyCompare Value.none "lt" (Value.int 0)) = true :=
  ⟨(compare_semantics.1 Value.none (Value.int 0)).1,
   compare_semantics.2.2.1 Value.none (Value.int 0) "lt" (Or.inl rfl) rfl⟩

/-- C8: Graph creation validation: `create_graph` fails (`InvalidGraph`,
no graph produced) exactly when the supplied start node is not among
the supplied node names; edge endpoints are never validated — the
outcome is identical for any two edge lists, so a graph whose edges
reference nonexistent nodes is created successfully — and reaching the
missing node at traversal time fails the run with the `KeyError`
message (the `UnknownNode` failure). -/
theorem create_graph_validation :
    (∀ gid nodes edges start,
       isOkE (create_graph gid nodes edges start) = true
         ↔ start ∈ nodes.map NodeDef.name) ∧
    (∀ gid nodes edges edges2 start,
       isOkE (create_graph gid nodes edges start)
         = isOkE (create_graph gid nodes edges2 start)) ∧
    (∀ reg g run name fuel, alistGet g.nodes name = Option.none →
       runLoop reg g (fuel + 1) run (some name)
         = some { run with
                    current_node := some name
                    status := .FAILED
                    error := some (keyErrorMsg name) }) := by
  refine ⟨?_, ?_, ?_⟩
  · intro gid nodes edges start
    unfold create_graph
    by_cases hs : (alistGet (nodesDict nodes) start).isSome = true
    · rw [if_pos hs]
      simpa [isOkE] using (nodesDict_mem nodes start).mp hs
    · rw [if_neg hs]
      simp only [isOkE]
      exact iff_of_false (by simp)
        (fun hmem => hs ((nodesDict_mem nodes start).mpr hmem))
  · intro gid nodes edges edges2 start
    unfold create_graph
    by_cases hs : (alistGet (nodesDict nodes) start).isSome = true <;>
      simp [hs, isOkE]
  · intro reg g run name fuel hnone
    rw [runLoop]
    unfold stepNode
    simp only [hnone]

/-- C8 witness: a graph with a dangling edge `a -> ghost` is created
successfully, and the run fails with `KeyError` of `ghost` when the
missing node is reached. -/
theorem create_graph_validation_witness :
    isOkE (create_graph "G" w8Nodes w8Edges "a") = true ∧
    runLoop fixReg
        { id := "G", nodes := nodesDict w8Nodes, edges := w8Edges, start_node := "a" }
        1 (freshRun "G") (some "ghost")
      = some { freshRun "G" with
                 current_node := some "ghost"
                 status := .FAILED
                 error := some (keyErrorMsg "ghost") } :=
  ⟨(create_graph_validation.1 "G" w8Nodes w8Edges "a").mpr (by decide),
   create_graph_validation.2.2 fixReg
     { id := "G", nodes := nodesDict w8Nodes, edges := w8Edges, start_node := "a" }
     (freshRun "G") "ghost" 0 rfl⟩

/-- C9: Duplicate node names are silently collapsed: creation succeeds
(whenever the start node is among the supplied names — duplicates cause
no error), and the graph's node index binds each name to the LAST
supplied `NodeDef` carrying it, silently discarding earlier ones. -/
theorem duplicate_nodes_last_wins (gid : String) (nodes : List NodeDef)
    (edges : List EdgeDef) (start : String)
    (hstart : start ∈ nodes.map NodeDef.name) :
    create_graph gid nodes edges start
      = .ok { id := gid, nodes := nodesDict nodes, edges := edges, start_node := start } ∧
    ∀ name, alistGet (nodesDict nodes) name
      = nodes.reverse.find? (fun n => n.name == name) := by
  refine ⟨?_, fun name => nodesDict_get nodes name⟩
  unfold create_graph
  rw [if_pos ((nodesDict_mem nodes start).mpr hstart)]

/-- C9 witness: with two `NodeDef`s both named `a` (tools `t1`, `t2`),
creation succeeds and the index binds `a` to the later `t2` node. -/
theorem duplicate_nodes_last_wins_witness :
    create_graph "G" w9Nodes [] "a"
      = .ok { id := "G", nodes := [("a", ⟨"a", "t2"⟩)], edges := [], start_node := "a" } ∧
    alistGet (nodesDict w9Nodes) "a" = some ⟨"a", "t2"⟩ := by
  obtain ⟨hc, hg⟩ := duplicate_nodes_last_wins "G" w9Nodes [] "a" (by decide)
  exact ⟨hc, hg "a"⟩

/-- C10: An absent condition key matches a defaulted condition: an edge
whose `condition_key` is set but absent from the state, whose operator
is the default `eq` and whose value was left at the default `None`,
matches — the missing value read from the state equals the defaulted
value — so such an edge behaves like an unconditional edge whenever its
key is absent. -/
theorem absent_key_default_matches (e : EdgeDef) (st : Dict) (k : String)
    (hk : e.condition_key = some k) (hop : e.operator = "eq")
    (hv : e.value = .none) (habs : alistGet st k = Option.none) :
    edgeMatches e st = .ok true ∧
    edgeMatches e st = edgeMatches { e with condition_key := Option.none } st := by
  have h1 : edgeMatches e st = .ok true := by
    unfold edgeMatches
    simp only [hk]
    rw [hop, hv]
    unfold stateGet
    rw [habs]
    rfl
  exact ⟨h1, h1.trans rfl⟩

/-- C10 witness: the fixture edge (condition on `flag`, defaults
elsewhere) matches against the empty state. -/
theorem absent_key_default_matches_witness :
    edgeMatches w10Edge [] = .ok true :=
  (absent_key_default_matches w10Edge [] "flag" rfl rfl rfl rfl).1

/-- C5 counterexample: the snapshot the engine records is
`run.state.copy()` — a SHALLOW copy — so deep-copy independence fails:
in the concrete heap where `run.state = {x: {v: 0}}` lives at address
0, the snapshot (fresh dict at address 3) reads `{x -> v} = 0` when
taken, but after the nested mutation `run.state["x"]["v"] = 5` the same
read through the snapshot yields 5: the later mutation of a nested
value changed the entry's `state_snapshot`. -/
theorem snapshot_not_deep_copy :
    w5Snap = 3 ∧
    readRef w5HeapCopied w5Snap ["x", "v"] = some (.int 0) ∧
    readRef w5HeapMutated w5Snap ["x", "v"] = some (.int 5) :=
  ⟨rfl, rfl, rfl⟩

/-- C5 amended: the snapshot taken by `run.state.copy()` is a fresh
top-level dict with the same entries as the state, distinct from the
state's own dict object, so any later TOP-LEVEL mutation of the state's
dict (or rebinding of `run.state`, which the engine does on every tool
return) leaves the snapshot's entries unchanged; nested values, being
shared rather than copied, are not protected. -/
theorem snapshot_shallow_copy (h : Heap) (a : Nat) (entries : List (String × Nat))
    (hget : heapGet h a = some (.dict entries)) :
    heapGet (dictCopy h a).1 (dictCopy h a).2 = some (.dict entries) ∧
    (dictCopy h a).2 ≠ a ∧
    ∀ k ref, heapGet (dictSetItem (dictCopy h a).1 a k ref) (dictCopy h a).2
      = some (.dict entries) := by
  have ha : a < h.length := by
    by_contra hlt
    push_neg at hlt
    have hnone : heapGet h a = Option.none := by
      unfold heapGet
      exact List.get?_eq_none.mpr hlt
    rw [hnone] at hget
    cases hget
  have hcopy : dictCopy h a = (h ++ [PyObj.dict entries], h.length) := by
    unfold dictCopy heapAlloc
    rw [hget]
  rw [hcopy]
  refine ⟨?_, ?_, ?_⟩
  · show heapGet (h ++ [PyObj.dict entries]) h.length = some (.dict entries)
    unfold heapGet
    exact List.get?_concat_length h (PyObj.dict entries)
  · intro heq
    have hlen : h.length = a := heq
    omega
  · intro k ref
    have hga : heapGet (h ++ [PyObj.dict entries]) a = some (.dict entries) := by
      unfold heapGet
      rw [List.get?_append ha]
      exact hget
    unfold dictSetItem
    rw [hga]
    unfold heapSet heapGet
    rw [List.get?_set_ne _ _ (by omega)]
    exact List.get?_concat_length h (PyObj.dict entries)

/-- C5 amended witness: on the concrete fixture heap, the snapshot at
address 3 holds the same top-level entries as the state, and a
top-level assignment `run.state["x"] = <ref 2>` on the original dict
leaves the snapshot unchanged. -/
theorem snapshot_shallow_copy_witness :
    heapGet w5HeapCopied w5Snap = some (.dict [("x", 1)]) ∧
    heapGet (dictSetItem w5HeapCopied 0 "x" 2) w5Snap = some (.dict [("x", 1)]) := by
  obtain ⟨h1, h2, h3⟩ := snapshot_shallow_copy w5Heap 0 [("x", 1)] rfl
  exact ⟨h1, h3 "x" 2⟩

end Trendence


